import Mathlib

/-!
Verification of the ViniPlay process-orchestration core (src/server.js):
the live stream session manager, the inactivity janitor, and the DVR
scheduling engine.  Each definition below is a shallow embedding of the
corresponding JavaScript, with timestamps as integer milliseconds since
the epoch, the JS `Map` as an association list, and the Node event loop
as an explicit event list where interleaving matters.
-/

namespace ViniPlay

/-! ## DVR job data model (dvr_jobs rows) -/

/-- The `status` column of a dvr_jobs row: 'scheduled' | 'recording' |
'completed' | 'error' | 'cancelled'. -/
inductive JobStatus where
  | scheduled
  | recording
  | completed
  | error
  | cancelled
deriving DecidableEq, Repr

/-- The fields of a dvr_jobs row that the scheduling engine reads or
writes.  Times are epoch milliseconds (`new Date(x).getTime()`). -/
structure DvrJob where
  status : JobStatus
  startTime : Int
  endTime : Int
  errorMessage : Option String
deriving DecidableEq, Repr

/-- Terminal statuses per the spec: completed, error, cancelled. -/
def JobStatus.isTerminal : JobStatus → Bool
  | .completed => true
  | .error => true
  | .cancelled => true
  | _ => false

/-! ## Conflict detection (server.js `checkForConflicts`) -/

/-- JS `settings.dvr?.maxConcurrentRecordings || 1`: an absent setting and
the falsy value `0` both yield the default `1`. -/
def maxConcurrentOf : Option Nat → Nat
  | none => 1
  | some 0 => 1
  | some n => n

/-- The filter predicate of `checkForConflicts`:
`newStart < existingEnd && newEnd > existingStart`. -/
def overlapsJob (newJob existingJob : DvrJob) : Bool :=
  newJob.startTime < existingJob.endTime && newJob.endTime > existingJob.startTime

/-- server.js `checkForConflicts`: filters the caller-supplied list of the
user's 'scheduled' jobs by the overlap test; resolves the full conflicting
list when `conflictingJobs.length >= maxConcurrent`, else `[]`. -/
def checkForConflicts (maxConcurrentSetting : Option Nat)
    (scheduledJobs : List DvrJob) (newJob : DvrJob) : List DvrJob :=
  let maxConcurrent := maxConcurrentOf maxConcurrentSetting
  let conflictingJobs := scheduledJobs.filter (fun j => overlapsJob newJob j)
  if conflictingJobs.length ≥ maxConcurrent then conflictingJobs else []

/-- POST /api/dvr/schedule rejects (409 with `conflictingJobs`) exactly when
the list resolved by `checkForConflicts` is non-empty. -/
def scheduleRejected (maxConcurrentSetting : Option Nat)
    (scheduledJobs : List DvrJob) (newJob : DvrJob) : Bool :=
  (checkForConflicts maxConcurrentSetting scheduledJobs newJob).length > 0

/-! ## Buffer expansion (POST /api/dvr/schedule) -/

/-- JS `(dvrSettings.preBufferMinutes || 0)`. -/
def bufferMinutesOrZero : Option Nat → Nat
  | none => 0
  | some n => n

/-- The persisted recording window of POST /api/dvr/schedule:
`startTime = programStart − preBuffer`, `endTime = programStop + postBuffer`
with each buffer `(…BufferMinutes || 0) * 60 * 1000` milliseconds. -/
def scheduledWindow (preBufferMinutes postBufferMinutes : Option Nat)
    (programStart programStop : Int) : Int × Int :=
  let preBuffer : Int := (bufferMinutesOrZero preBufferMinutes : Int) * 60 * 1000
  let postBuffer : Int := (bufferMinutesOrZero postBufferMinutes : Int) * 60 * 1000
  (programStart - preBuffer, programStop + postBuffer)

/-! ## Job status updates performed by the DVR API endpoints -/

/-- POST /api/dvr/jobs/:id/stop runs
`UPDATE dvr_jobs SET status = 'completed' WHERE id = ?` — the WHERE clause
has no status guard, so any matched row is set to 'completed'. -/
def stopJobEndpointUpdate (job : DvrJob) : DvrJob :=
  { job with status := .completed }

/-- DELETE /api/dvr/jobs/:id runs
`UPDATE dvr_jobs SET status = 'cancelled' WHERE id = ?` — again with no
status guard in the WHERE clause. -/
def cancelJobEndpointUpdate (job : DvrJob) : DvrJob :=
  { job with status := .cancelled }

/-- PUT /api/dvr/jobs/:id: refuses with
"Only scheduled jobs can be modified." unless `job.status === 'scheduled'`;
otherwise updates the persisted window to the requested times. -/
def rescheduleJobEndpoint (job : DvrJob) (newStart newEnd : Int) :
    Except String DvrJob :=
  if job.status ≠ .scheduled then
    .error "Only scheduled jobs can be modified."
  else
    .ok { job with startTime := newStart, endTime := newEnd }

/-! ## Substring search (used to state "message contains …" properties) -/

/-- Holds (`containsSeq pat l`) when `pat` occurs contiguously inside `l`
(JS `String.prototype.includes`). -/
def containsSeq (pat : List Char) : List Char → Bool
  | [] => pat.isEmpty
  | c :: cs => pat.isPrefixOf (c :: cs) || containsSeq pat cs

/-- String-level wrapper for `containsSeq`. -/
def strContains (s pat : String) : Bool :=
  containsSeq pat.data s.data

/-! ## Startup recovery and `scheduleDvrJob` (server.js) -/

/-- Startup phase 1: `UPDATE dvr_jobs SET status = 'error', errorMessage =
'Server restarted during recording.' WHERE status = 'recording'`, applied
row-wise. -/
def markInterruptedRecording (job : DvrJob) : DvrJob :=
  if job.status = .recording then
    { job with status := .error,
               errorMessage := some "Server restarted during recording." }
  else job

/-- What `scheduleDvrJob` arms: nothing (past job), an immediate
`startRecording` plus a stop timer, or a start timer plus a stop timer. -/
inductive ScheduleAction where
  | pastNoTimers
  | startImmediately (stopAt : Int)
  | armTimers (startAt stopAt : Int)
deriving DecidableEq, Repr

/-- The timer decision of `scheduleDvrJob`: `if (endTime <= now)` nothing is
armed; `if (startTime > now)` a start timer fires at `startTime`, else
`startRecording(job)` runs immediately; in both non-past branches
`schedule.scheduleJob(endTime, () => stopRecording(job.id))` arms a stop
timer. -/
def scheduleDvrJobAction (now : Int) (job : DvrJob) : ScheduleAction :=
  if job.endTime ≤ now then .pastNoTimers
  else if now < job.startTime then .armTimers job.startTime job.endTime
  else .startImmediately job.endTime

/-- The status write of `scheduleDvrJob`'s past branch: a job whose window
has elapsed is marked 'error' when (and only when) it is still
'scheduled'. -/
def scheduleDvrJobRecover (now : Int) (job : DvrJob) : DvrJob :=
  if job.endTime ≤ now then
    if job.status = .scheduled then
      { job with status := .error,
                 errorMessage := some "Job was scheduled for a time in the past." }
    else job
  else job

/-! ## Timer bookkeeping of the DVR engine (claim C10)

`activeDvrJobs` is the jobId-keyed map of stored timer handles; we model the
slice of the state belonging to one job, together with the multiset of
armed-and-not-cancelled timers (identified by their fire instants). -/

structure TimerState where
  /-- Entry `activeDvrJobs.get(jobId)`: the stored start-timer handle, if any. -/
  activeDvrJob : Option Int
  /-- Armed, not yet cancelled start timers for this job (fire instants). -/
  liveStartTimers : List Int
  /-- Armed, not yet cancelled stop timers for this job (fire instants). -/
  liveStopTimers : List Int
deriving DecidableEq, Repr

/-- The shared prologue of `scheduleDvrJob` and of DELETE /api/dvr/jobs/:id:
`if (activeDvrJobs.has(id)) { activeDvrJobs.get(id)?.cancel();
activeDvrJobs.delete(id); }`. Only the stored handle is cancelled. -/
def cancelStoredStartTimer (st : TimerState) : TimerState :=
  match st.activeDvrJob with
  | some t => { st with activeDvrJob := none,
                        liveStartTimers := st.liveStartTimers.erase t }
  | none => st

/-- Effect of `scheduleDvrJob` on the timer state: cancel any stored handle,
then arm per `scheduleDvrJobAction`.  Only the start timer is stored in
`activeDvrJobs`; the stop timer handle is discarded. -/
def scheduleDvrJobTimers (now startTime endTime : Int) (st : TimerState) :
    TimerState :=
  let st1 := cancelStoredStartTimer st
  if endTime ≤ now then st1
  else if now < startTime then
    { st1 with activeDvrJob := some startTime,
               liveStartTimers := st1.liveStartTimers ++ [startTime],
               liveStopTimers := st1.liveStopTimers ++ [endTime] }
  else
    { st1 with liveStopTimers := st1.liveStopTimers ++ [endTime] }

/-! ## Recording-process exit classification (startRecording's close handler) -/

/-- JS `Math.round((endMs - startMs) / 1000)` for integer millisecond
inputs: floor of the rational plus one half, i.e. `fdiv (d + 500) 1000`. -/
def mathRoundDiv1000 (d : Int) : Int :=
  Int.fdiv (d + 500) 1000

/-- The stderr marker tested by the close handler. -/
def interruptMarker : String := "Exiting normally, received signal 2"

/-- JS `wasStoppedIntentionally`:
`ffmpegErrorOutput.includes('Exiting normally, received signal 2') || code === 255`.
A process killed by a signal reports `code === null` (modelled as `none`). -/
def wasStoppedIntentionally (exitCode : Option Int) (stderrOutput : String) : Bool :=
  containsSeq interruptMarker.data stderrOutput.data || exitCode == some 255

/-- JS template interpolation `${code}` of the exit code. -/
def jsCodeString : Option Int → String
  | none => "null"
  | some n => toString n

/-- JS `str.slice(-1000)`: the last (at most) 1000 characters. -/
def sliceLastThousand (s : String) : String :=
  ⟨s.data.drop (s.data.length - 1000)⟩

/-- The error message of the close handler's failure branch:
`Recording failed. FFmpeg exit code: ${code}. ${statErr ? 'File stat error: '
+ statErr.message : ''}. FFmpeg output: ${ffmpegErrorOutput.slice(-1000)}`. -/
def recordingFailMessage (exitCode : Option Int) (statErr : Option String)
    (stderrOutput : String) : String :=
  "Recording failed. FFmpeg exit code: " ++ jsCodeString exitCode ++ ". " ++
    (match statErr with
      | some m => "File stat error: " ++ m
      | none => "") ++
    ". FFmpeg output: " ++ sliceLastThousand stderrOutput

/-- Outcome of the close handler: either the job is marked 'completed' and
a dvr_recordings row is inserted, or it is marked 'error' (optionally
deleting the too-small output file). -/
inductive CloseOutcome where
  | completed (durationSeconds : Int) (fileSizeBytes : Nat)
  | errored (errorMessage : String) (fileDeleted : Bool)
deriving DecidableEq, Repr

/-- The `ffmpeg.on('close')` handler of `startRecording`, after the chmod:
`stat` is `.ok size` when `fs.stat` succeeded (file exists) and
`.error message` when it failed.  Completion requires
`(code === 0 || wasStoppedIntentionally) && !statErr && stats.size > 1024`;
the duration is `Math.round((job.endTime − job.startTime) / 1000)` from the
job's persisted times.  Every other case marks 'error' and deletes the file
when it exists with `size <= 1024`. -/
def onRecordingClose (jobStartTime jobEndTime : Int) (exitCode : Option Int)
    (stderrOutput : String) (stat : Except String Nat) : CloseOutcome :=
  let graceful := exitCode == some 0 || wasStoppedIntentionally exitCode stderrOutput
  match stat with
  | .ok size =>
    if graceful && size > 1024 then
      .completed (mathRoundDiv1000 (jobEndTime - jobStartTime)) size
    else
      .errored (recordingFailMessage exitCode none stderrOutput) (size ≤ 1024)
  | .error statMsg =>
    .errored (recordingFailMessage exitCode (some statMsg) stderrOutput) false

/-! ## Live stream session manager (server.js `activeStreamProcesses`) -/

/-- Constant `STREAM_INACTIVITY_TIMEOUT = 30000` (30 seconds). -/
def STREAM_INACTIVITY_TIMEOUT : Int := 30000

/-- The janitor period: `setInterval(cleanupInactiveStreams, 60000)`. -/
def JANITOR_SWEEP_PERIOD : Int := 60000

/-- The fields of an `activeStreamProcesses` entry read by the stop endpoint
and the janitor. -/
structure StreamSession where
  references : Int
  lastAccess : Int
  historyId : Option Nat
deriving DecidableEq, Repr

/-- The `activeStreamProcesses` JS `Map`, keyed by
`userId::streamUrl::profileId`; JS Map semantics keep at most one entry per
key, which the operations below preserve. -/
abbrev StreamTable := List (String × StreamSession)

/-- JS `Map.prototype.get`. -/
def mapGet (table : StreamTable) (key : String) : Option StreamSession :=
  (table.find? (fun e => e.1 == key)).map (·.2)

/-- JS `Map.prototype.delete`. -/
def mapDelete (table : StreamTable) (key : String) : StreamTable :=
  table.filter (fun e => e.1 != key)

/-- Observable effects of POST /api/stream/stop. -/
structure StopStreamOutcome where
  table : StreamTable
  killedProcess : Bool
  historyFinalized : Bool
  reportedSuccess : Bool
deriving DecidableEq, Repr

/-- POST /api/stream/stop after key resolution.  No entry: success, nothing
changed.  `references > 1`: success, nothing touched ("kept alive for other
active clients").  Otherwise the try block finalizes the history row (when
`historyId` is set), sends SIGKILL and deletes the entry; a throwing kill
(`killThrows`) skips the delete and the catch block only warns; either way
the endpoint reports success. -/
def stopStream (killThrows : Bool) (table : StreamTable) (key : String) :
    StopStreamOutcome :=
  match mapGet table key with
  | none => ⟨table, false, false, true⟩
  | some info =>
    if info.references > 1 then ⟨table, false, false, true⟩
    else if killThrows then ⟨table, false, info.historyId.isSome, true⟩
    else ⟨mapDelete table key, true, info.historyId.isSome, true⟩

/-- The janitor's staleness test:
`streamInfo.references <= 0 && now - streamInfo.lastAccess > STREAM_INACTIVITY_TIMEOUT`. -/
def janitorExpired (now : Int) (s : StreamSession) : Bool :=
  s.references ≤ 0 && now - s.lastAccess > STREAM_INACTIVITY_TIMEOUT

/-- Observable effects of one `cleanupInactiveStreams()` sweep. -/
structure JanitorOutcome where
  table : StreamTable
  killed : List String
  historyFinalized : List String
deriving DecidableEq, Repr

/-- server.js `cleanupInactiveStreams`: for every expired entry the try
block finalizes the history row (the `db.run` precedes the kill), sends
SIGKILL and deletes the entry; when the kill throws, the catch block still
deletes the entry.  Fresh or referenced entries are untouched. -/
def cleanupInactiveStreams (killThrows : String → Bool) (now : Int) :
    StreamTable → JanitorOutcome
  | [] => ⟨[], [], []⟩
  | e :: rest =>
    let r := cleanupInactiveStreams killThrows now rest
    if janitorExpired now e.2 then
      let hist := if e.2.historyId.isSome then [e.1] else []
      if killThrows e.1 then
        ⟨r.table, r.killed, hist ++ r.historyFinalized⟩
      else
        ⟨r.table, e.1 :: r.killed, hist ++ r.historyFinalized⟩
    else
      ⟨e :: r.table, r.killed, r.historyFinalized⟩

/-! ## Attach interleaving model (GET /stream, one fixed session key)

The /stream handler runs synchronously from the `activeStreamProcesses`
lookup to the end of the request: on a hit it increments `references`
(line 3349); on a miss it spawns ffmpeg (line 3425) and calls `db.run`,
whose completion callback later registers the session with `references: 1`
(lines 3440–3456).  We model the event loop for one key as a list of
atomic events: an `attach` (one handler execution) and a `dbCallback` (one
pending history-insert callback firing). -/

structure AttachModelState where
  /-- Value `activeStreamProcesses.get(streamKey)?.references` (none = no entry;
  the JS Map holds at most one entry per key). -/
  entry : Option Int
  /-- history-insert callbacks spawned but not yet run. -/
  pendingRegistrations : Nat
  /-- ffmpeg processes spawned for this key. -/
  spawned : Nat
  /-- attach requests served, none of which has detached. -/
  attaches : Nat
deriving DecidableEq, Repr

inductive AttachEvent where
  | attach
  | dbCallback
deriving DecidableEq, Repr

/-- One event-loop step of the /stream path for the fixed key. -/
def attachStep (st : AttachModelState) : AttachEvent → AttachModelState
  | .attach =>
    match st.entry with
    | some r => { st with entry := some (r + 1), attaches := st.attaches + 1 }
    | none =>
      { st with spawned := st.spawned + 1,
                pendingRegistrations := st.pendingRegistrations + 1,
                attaches := st.attaches + 1 }
  | .dbCallback =>
    match st.pendingRegistrations with
    | 0 => st
    | p + 1 =>
      -- `activeStreamProcesses.set(streamKey, { references: 1, … })`
      -- overwrites whatever entry the key currently has.
      { st with pendingRegistrations := p, entry := some 1 }

def attachInit : AttachModelState := ⟨none, 0, 0, 0⟩

def attachRun (events : List AttachEvent) : AttachModelState :=
  events.foldl attachStep attachInit

/-- A trace is race-free when every attach runs while no history-insert
registration is pending (i.e. each new session is registered before the
next viewer attaches). -/
def noRaceFrom : AttachModelState → List AttachEvent → Bool
  | _, [] => true
  | st, .attach :: rest =>
      decide (st.pendingRegistrations = 0) && noRaceFrom (attachStep st .attach) rest
  | st, .dbCallback :: rest => noRaceFrom (attachStep st .dbCallback) rest

/-- Inductive invariant of race-free traces: at most one registration is
ever pending; while one is pending exactly one process has been spawned for
the single attach; once registered, the entry's reference count equals the
number of un-detached attaches and exactly one process was ever spawned. -/
def AttachInv (st : AttachModelState) : Prop :=
  st.pendingRegistrations ≤ 1 ∧
  (st.pendingRegistrations = 1 →
    st.entry = none ∧ st.attaches = 1 ∧ st.spawned = 1) ∧
  (st.pendingRegistrations = 0 →
    (st.entry = none ∧ st.attaches = 0 ∧ st.spawned = 0) ∨
    (∃ r : Int, st.entry = some r ∧ r = (st.attaches : Int) ∧ st.spawned = 1))

/-- Result of server.js `stopRecording(jobId)`. -/
inductive StopRecordingAction where
  | warnNoop
  | sigint (pid : Nat)
  | sigkill (pid : Nat)
deriving DecidableEq, Repr

/-- server.js `stopRecording(jobId)`: warns and does nothing when
`runningFFmpegProcesses` holds no pid for the job; otherwise sends SIGINT
(falling back to SIGKILL if the SIGINT call throws). -/
def stopRecording (trackedPid : Option Nat) (sigintThrows : Bool) :
    StopRecordingAction :=
  match trackedPid with
  | none => .warnNoop
  | some pid => if sigintThrows then .sigkill pid else .sigint pid

/-! ## Command template processing (GET /stream and startRecording)

Both paths substitute placeholders with `String.prototype.replace(/…/g)`
(global literal patterns, the replacement not rescanned), then tokenize with
`commandTemplate.match(/(?:[^\s"]+|"[^"]*")+/g)` and strip one surrounding
quote from each token with `arg.replace(/^"|"$/g, '')`. -/

/-- The `{streamUrl}` global replacement (both paths; leftmost, non-rescanning). -/
def substStreamUrl (rep : List Char) : List Char → List Char
  | '{' :: 's' :: 't' :: 'r' :: 'e' :: 'a' :: 'm' :: 'U' :: 'r' :: 'l' :: '}' :: rest =>
      rep ++ substStreamUrl rep rest
  | ch :: cs => ch :: substStreamUrl rep cs
  | [] => []

/-- The `/{userAgent}|{clientUserAgent}/g` replace of the live path: either alternative
is replaced (the two literals can never match at the same position). -/
def substUserAgentOrClient (rep : List Char) : List Char → List Char
  | '{' :: 'u' :: 's' :: 'e' :: 'r' :: 'A' :: 'g' :: 'e' :: 'n' :: 't' :: '}' :: rest =>
      rep ++ substUserAgentOrClient rep rest
  | '{' :: 'c' :: 'l' :: 'i' :: 'e' :: 'n' :: 't' :: 'U' :: 's' :: 'e' :: 'r' :: 'A' :: 'g' :: 'e' :: 'n' :: 't' :: '}' :: rest =>
      rep ++ substUserAgentOrClient rep rest
  | ch :: cs => ch :: substUserAgentOrClient rep cs
  | [] => []

/-- The `{userAgent}` replacement of the recording path (no alias). -/
def substUserAgent (rep : List Char) : List Char → List Char
  | '{' :: 'u' :: 's' :: 'e' :: 'r' :: 'A' :: 'g' :: 'e' :: 'n' :: 't' :: '}' :: rest =>
      rep ++ substUserAgent rep rest
  | ch :: cs => ch :: substUserAgent rep cs
  | [] => []

/-- The `{filePath}` replacement (recording path only). -/
def substFilePath (rep : List Char) : List Char → List Char
  | '{' :: 'f' :: 'i' :: 'l' :: 'e' :: 'P' :: 'a' :: 't' :: 'h' :: '}' :: rest =>
      rep ++ substFilePath rep rest
  | ch :: cs => ch :: substFilePath rep cs
  | [] => []

/-- The live path's chained replaces:
`profile.command.replace(/{streamUrl}/g, streamUrl)
.replace(/{userAgent}|{clientUserAgent}/g, userAgent.value)`. -/
def liveSubstitute (streamUrl userAgentValue profileCommand : List Char) :
    List Char :=
  substUserAgentOrClient userAgentValue (substStreamUrl streamUrl profileCommand)

/-- The recording path's chained replaces:
`recProfile.command.replace(/{streamUrl}/g, …).replace(/{userAgent}/g, …)
.replace(/{filePath}/g, …)`. -/
def recordingSubstitute (streamUrl userAgentValue filePath recCommand : List Char) :
    List Char :=
  substFilePath filePath (substUserAgent userAgentValue
    (substStreamUrl streamUrl recCommand))

/-- The `\s` class of the tokenizing regex, restricted to ASCII whitespace. -/
def isSpaceChar (ch : Char) : Bool :=
  ch == ' ' || ch == '\t' || ch == '\n' || ch == '\r'

/-- Prepend the accumulated token (if non-empty) to the token list. -/
def emitToken (acc : List Char) (rest : List (List Char)) : List (List Char) :=
  if acc.isEmpty then rest else acc.reverse :: rest

/-- The global scan of `/(?:[^\s"]+|"[^"]*")+/g`, as a left-to-right state
machine.  A token is a maximal run of non-whitespace characters in which a
`"` opens a quoted stretch exactly when a closing `"` exists later (the
regex's quoted alternative `"[^"]*"` can only match then); whitespace, and a
`"` with no later partner (which no alternative can match), end the current
token and match nothing.  `acc` holds the current token reversed; `inQuote`
says we are inside a quoted stretch. -/
def scanTokens : Bool → List Char → List Char → List (List Char)
  | _, acc, [] => emitToken acc []
  | true, acc, ch :: cs =>
    if ch == '"' then scanTokens false (ch :: acc) cs
    else scanTokens true (ch :: acc) cs
  | false, acc, ch :: cs =>
    if isSpaceChar ch then emitToken acc (scanTokens false [] cs)
    else if ch == '"' then
      if cs.contains '"' then scanTokens true (ch :: acc) cs
      else emitToken acc (scanTokens false [] cs)
    else scanTokens false (ch :: acc) cs

/-- JS `arg.replace` of a leading quote, matched first. -/
def stripLeadingQuote (l : List Char) : List Char :=
  match l with
  | ch :: rest => if ch == '"' then rest else l
  | [] => []

/-- Trailing part of `arg.replace(/^"|"$/g, '')`. -/
def stripTrailingQuote (l : List Char) : List Char :=
  if l.getLast? == some '"' then l.dropLast else l

/-- One leading and one trailing quote are stripped from a token. -/
def stripQuotes (l : List Char) : List Char :=
  stripTrailingQuote (stripLeadingQuote l)

/-- The full tokenization `(template.match(regex) || []).map(arg =>
arg.replace(/^"|"$/g, ''))`. -/
def tokenizeCommand (template : List Char) : List (List Char) :=
  (scanTokens false [] template).map stripQuotes

end ViniPlay

namespace ViniPlay

/-- Cancelling the stored start-timer handle never touches a stop timer. -/
theorem cancelStoredStartTimer_liveStopTimers (st : TimerState) :
    (cancelStoredStartTimer st).liveStopTimers = st.liveStopTimers := by
  cases h : st.activeDvrJob <;> simp [cancelStoredStartTimer, h]

/-- Function `scheduleDvrJob` only appends to the live stop timers. -/
theorem scheduleDvrJobTimers_liveStop_mono (now s e : Int) (st : TimerState)
    (t : Int) (ht : t ∈ st.liveStopTimers) :
    t ∈ (scheduleDvrJobTimers now s e st).liveStopTimers := by
  unfold scheduleDvrJobTimers
  have h1 : (cancelStoredStartTimer st).liveStopTimers = st.liveStopTimers :=
    cancelStoredStartTimer_liveStopTimers st
  split
  · simpa [h1] using ht
  · split <;> simp [h1, List.mem_append, ht]

/-- C2: Schedule rejects with the full conflicting list iff the number of
overlapping 'scheduled' jobs reaches `maxConcurrentRecordings` (default 1);
windows that merely touch at a boundary are not counted as conflicts. -/
theorem C2_conflict_check (setting : Option Nat) (jobs : List DvrJob)
    (newJob : DvrJob) :
    (scheduleRejected setting jobs newJob = true ↔
      maxConcurrentOf setting ≤ (jobs.filter (fun j => overlapsJob newJob j)).length) ∧
    (scheduleRejected setting jobs newJob = true →
      checkForConflicts setting jobs newJob = jobs.filter (fun j => overlapsJob newJob j)) ∧
    (maxConcurrentOf none = 1) ∧
    (∀ j : DvrJob, newJob.startTime = j.endTime ∨ newJob.endTime = j.startTime →
      overlapsJob newJob j = false) := by
  have hmax : 1 ≤ maxConcurrentOf setting := by
    match setting with
    | none => exact le_refl 1
    | some 0 => exact le_refl 1
    | some (n + 1) => exact Nat.succ_le_succ (Nat.zero_le n)
  refine ⟨?_, ?_, rfl, ?_⟩
  · unfold scheduleRejected checkForConflicts
    by_cases hge : maxConcurrentOf setting ≤
        (jobs.filter (fun j => overlapsJob newJob j)).length
    · rw [if_pos hge]
      simp only [decide_eq_true_eq]
      exact iff_of_true (by omega) hge
    · rw [if_neg hge]
      simp only [List.length_nil, decide_eq_true_eq]
      exact iff_of_false (by omega) hge
  · intro h
    unfold scheduleRejected checkForConflicts at *
    by_cases hge : (jobs.filter (fun j => overlapsJob newJob j)).length ≥ maxConcurrentOf setting
    · simp only [if_pos hge]
    · simp only [if_neg hge] at h
      simp at h
  · intro j hj
    unfold overlapsJob
    rcases hj with h | h
    · rw [h]
      simp
    · rw [h]
      simp

/-- Witness for C2 at the spec's P3 scenario: with the default limit, job B
overlapping job A is rejected with A alone in the conflicting list, while a
job touching A's end boundary does not overlap. -/
theorem C2_conflict_check_witness :
    (scheduleRejected none [⟨.scheduled, 100, 200, none⟩] ⟨.scheduled, 150, 250, none⟩ = true ↔
      maxConcurrentOf none ≤
        ([(⟨.scheduled, 100, 200, none⟩ : DvrJob)].filter
          (fun j => overlapsJob ⟨.scheduled, 150, 250, none⟩ j)).length) ∧
    (scheduleRejected none [⟨.scheduled, 100, 200, none⟩] ⟨.scheduled, 150, 250, none⟩ = true →
      checkForConflicts none [⟨.scheduled, 100, 200, none⟩] ⟨.scheduled, 150, 250, none⟩ =
        [(⟨.scheduled, 100, 200, none⟩ : DvrJob)].filter
          (fun j => overlapsJob ⟨.scheduled, 150, 250, none⟩ j)) ∧
    (maxConcurrentOf none = 1) ∧
    (∀ j : DvrJob, (⟨.scheduled, 200, 250, none⟩ : DvrJob).startTime = j.endTime ∨
        (⟨.scheduled, 200, 250, none⟩ : DvrJob).endTime = j.startTime →
      overlapsJob ⟨.scheduled, 200, 250, none⟩ j = false) :=
  ⟨(C2_conflict_check none [⟨.scheduled, 100, 200, none⟩] ⟨.scheduled, 150, 250, none⟩).1,
   (C2_conflict_check none [⟨.scheduled, 100, 200, none⟩] ⟨.scheduled, 150, 250, none⟩).2.1,
   rfl,
   (C2_conflict_check none [] ⟨.scheduled, 200, 250, none⟩).2.2.2⟩

/-- C8: the persisted job window equals the program window expanded by the
configured buffers; in particular the 20:00–21:00 UTC program with a one
minute pre-buffer and two minute post-buffer yields 19:59:00Z–21:02:00Z
(epoch milliseconds 1704139140000 and 1704142920000). -/
theorem C8_buffer_expansion :
    (∀ (pre post : Option Nat) (programStart programStop : Int),
      scheduledWindow pre post programStart programStop =
        (programStart - (bufferMinutesOrZero pre : Int) * 60000,
         programStop + (bufferMinutesOrZero post : Int) * 60000)) ∧
    scheduledWindow (some 1) (some 2) 1704139200000 1704142800000 =
      (1704139140000, 1704142920000) := by
  constructor
  · intro pre post programStart programStop
    unfold scheduledWindow
    simp only [Prod.mk.injEq]
    constructor <;> ring
  · decide

/-- The race-free invariant holds initially. -/
theorem attachInv_init : AttachInv attachInit :=
  ⟨Nat.zero_le 1, fun h => absurd h (by decide), fun _ => Or.inl ⟨rfl, rfl, rfl⟩⟩

/-- The race-free invariant is preserved along race-free traces. -/
theorem attachInv_preserved : ∀ (events : List AttachEvent) (st : AttachModelState),
    AttachInv st → noRaceFrom st events = true →
    AttachInv (events.foldl attachStep st) := by
  intro events
  induction events with
  | nil => exact fun st h _ => h
  | cons e rest ih =>
    intro st hinv hnr
    rw [List.foldl_cons]
    obtain ⟨hle, hpend1, hpend0⟩ := hinv
    cases e with
    | attach =>
      simp only [noRaceFrom, Bool.and_eq_true, decide_eq_true_eq] at hnr
      obtain ⟨hp0, hrest⟩ := hnr
      refine ih _ ?_ hrest
      rcases hpend0 hp0 with ⟨he, ha, hs⟩ | ⟨r, he, hr, hs⟩
      · have hstep : attachStep st .attach =
            ⟨none, st.pendingRegistrations + 1, st.spawned + 1,
             st.attaches + 1⟩ := by
          simp [attachStep, he]
        rw [hstep]
        unfold AttachInv
        dsimp only
        exact ⟨by omega, fun _ => ⟨rfl, by omega, by omega⟩,
               fun hcontr => absurd hcontr (by omega)⟩
      · have hstep : attachStep st .attach =
            ⟨some (r + 1), st.pendingRegistrations, st.spawned,
             st.attaches + 1⟩ := by
          simp [attachStep, he]
        rw [hstep]
        unfold AttachInv
        dsimp only
        refine ⟨by omega, fun hcontr => absurd hcontr (by omega), fun _ => ?_⟩
        refine Or.inr ⟨r + 1, rfl, ?_, by omega⟩
        push_cast
        omega
    | dbCallback =>
      simp only [noRaceFrom] at hnr
      refine ih _ ?_ hnr
      cases hpp : st.pendingRegistrations with
      | zero =>
        have hstep : attachStep st .dbCallback = st := by
          simp [attachStep, hpp]
        rw [hstep]
        exact ⟨hle, hpend1, hpend0⟩
      | succ p =>
        have hp1 : st.pendingRegistrations = 1 := by omega
        obtain ⟨he, ha, hs⟩ := hpend1 hp1
        have hp' : p = 0 := by omega
        have hstep : attachStep st .dbCallback =
            ⟨some 1, p, st.spawned, st.attaches⟩ := by
          simp [attachStep, hpp]
        rw [hstep]
        unfold AttachInv
        dsimp only
        refine ⟨by omega, fun hcontr => absurd hcontr (by omega), fun _ => ?_⟩
        exact Or.inr ⟨1, rfl, by rw [ha]; rfl, by omega⟩

/-- C1 amended: on race-free traces — every attach runs only once no
session registration is pending — at most one ffmpeg process is ever
spawned for the key and the registered entry's reference count equals the
number of un-detached attaches.  (The JS Map itself guarantees at most one
entry per key; see `C1_counterexample` for what happens when a second
attach lands inside the registration window.) -/
theorem C1_attach_sharing (events : List AttachEvent)
    (h : noRaceFrom attachInit events = true) :
    (attachRun events).spawned ≤ 1 ∧
    ∀ r : Int, (attachRun events).entry = some r →
      r = ((attachRun events).attaches : Int) := by
  have hinv : AttachInv (attachRun events) :=
    attachInv_preserved events attachInit attachInv_init h
  obtain ⟨hle, hpend1, hpend0⟩ := hinv
  rcases Nat.le_one_iff_eq_zero_or_eq_one.mp hle with hp0 | hp1
  · rcases hpend0 hp0 with ⟨he, _, hs⟩ | ⟨r', he, hr', hs⟩
    · refine ⟨by omega, fun r hr => ?_⟩
      rw [he] at hr
      cases hr
    · refine ⟨by omega, fun r hr => ?_⟩
      have h2 : r' = r := Option.some.inj (he.symm.trans hr)
      rw [← h2]
      exact hr'
  · obtain ⟨he, _, hs⟩ := hpend1 hp1
    refine ⟨by omega, fun r hr => ?_⟩
    rw [he] at hr
    cases hr

/-- Witness for C1's amended theorem: second attach after the registration
callback — one spawn, reference count 2 for 2 un-detached attaches. -/
theorem C1_attach_sharing_witness :
    noRaceFrom attachInit [.attach, .dbCallback, .attach] = true ∧
    (attachRun [.attach, .dbCallback, .attach]).spawned ≤ 1 ∧
    (attachRun [.attach, .dbCallback, .attach]).entry = some 2 ∧
    (2 : Int) = ((attachRun [.attach, .dbCallback, .attach]).attaches : Int) :=
  ⟨by decide,
   (C1_attach_sharing [.attach, .dbCallback, .attach] (by decide)).1,
   by decide,
   (C1_attach_sharing [.attach, .dbCallback, .attach] (by decide)).2 2 (by decide)⟩

/-- C1 counterexample: two attaches for the same key that both arrive
before the first history-insert callback registers the session.  The
handler's map lookup misses twice, so TWO ffmpeg processes are spawned —
not "exactly one" — and after both callbacks the single table entry has
`references = 1` although 2 attaches are un-detached. -/
theorem C1_counterexample :
    (attachRun [.attach, .attach, .dbCallback, .dbCallback]).spawned = 2 ∧
    (attachRun [.attach, .attach, .dbCallback, .dbCallback]).attaches = 2 ∧
    (attachRun [.attach, .attach, .dbCallback, .dbCallback]).entry = some 1 := by
  decide

/-- C5: stopping a session with more than one reference is a success-only
no-op; stopping at reference count at most 1 (with the kill not throwing,
which a Node `ChildProcess.kill` never does) SIGKILLs the process, deletes
the entry, and finalizes the history row. -/
theorem C5_stop_stream (killThrows : Bool) (table : StreamTable) (key : String)
    (info : StreamSession) (hget : mapGet table key = some info) :
    (1 < info.references →
      stopStream killThrows table key = ⟨table, false, false, true⟩) ∧
    (info.references ≤ 1 → killThrows = false →
      stopStream killThrows table key =
        ⟨mapDelete table key, true, info.historyId.isSome, true⟩ ∧
      mapGet (mapDelete table key) key = none) := by
  constructor
  · intro h
    simp only [stopStream, hget]
    rw [if_pos h]
  · intro h hkt
    subst hkt
    constructor
    · simp only [stopStream, hget]
      rw [if_neg (by omega)]
      simp
    · unfold mapGet
      rw [List.find?_eq_none.mpr ?_]
      · rfl
      · intro x hx
        unfold mapDelete at hx
        rw [List.mem_filter] at hx
        have h2 := hx.2
        simp only [bne_iff_ne, ne_eq] at h2
        simp only [beq_iff_eq]
        exact h2

/-- Witness for C5: a 2-reference session is kept alive; a 1-reference
session is killed, removed, and its history finalized. -/
theorem C5_stop_stream_witness :
    (stopStream false [("k", ⟨2, 0, some 7⟩)] "k" =
      ⟨[("k", ⟨2, 0, some 7⟩)], false, false, true⟩) ∧
    (stopStream false [("k", ⟨1, 0, some 7⟩)] "k" = ⟨[], true, true, true⟩ ∧
      mapGet (mapDelete [("k", ⟨1, 0, some 7⟩)] "k") "k" = none) :=
  ⟨(C5_stop_stream false [("k", ⟨2, 0, some 7⟩)] "k" ⟨2, 0, some 7⟩
      (by decide)).1 (by decide),
   (C5_stop_stream false [("k", ⟨1, 0, some 7⟩)] "k" ⟨1, 0, some 7⟩
      (by decide)).2 (by decide) rfl⟩

/-- A sweep's surviving table does not depend on which kills throw: the
catch path deletes the bookkeeping entry exactly like the try path. -/
theorem cleanup_table_killIndep (kt kt' : String → Bool) (now : Int) :
    ∀ table : StreamTable,
      (cleanupInactiveStreams kt now table).table =
        (cleanupInactiveStreams kt' now table).table := by
  intro table
  induction table with
  | nil => rfl
  | cons x rest ih =>
    by_cases hx : janitorExpired now x.2
    · by_cases hk : kt x.1 <;> by_cases hk' : kt' x.1 <;>
        simp [cleanupInactiveStreams, hx, hk, hk', ih]
    · simp [cleanupInactiveStreams, hx, ih]

/-- Membership in the post-sweep table: exactly the non-expired entries. -/
theorem cleanup_table_mem (kt : String → Bool) (now : Int) :
    ∀ (table : StreamTable) (e : String × StreamSession),
      e ∈ (cleanupInactiveStreams kt now table).table ↔
        e ∈ table ∧ janitorExpired now e.2 = false := by
  intro table
  induction table with
  | nil => intro e; simp [cleanupInactiveStreams]
  | cons x rest ih =>
    intro e
    by_cases hx : janitorExpired now x.2
    · have htab : (cleanupInactiveStreams kt now (x :: rest)).table =
          (cleanupInactiveStreams kt now rest).table := by
        by_cases hk : kt x.1 <;> simp [cleanupInactiveStreams, hx, hk]
      rw [htab, ih, List.mem_cons]
      constructor
      · rintro ⟨hm, hex⟩
        exact ⟨Or.inr hm, hex⟩
      · rintro ⟨hm | hm, hex⟩
        · rw [hm] at hex
          rw [hx] at hex
          cases hex
        · exact ⟨hm, hex⟩
    · have htab : (cleanupInactiveStreams kt now (x :: rest)).table =
          x :: (cleanupInactiveStreams kt now rest).table := by
        simp [cleanupInactiveStreams, hx]
      rw [htab, List.mem_cons, List.mem_cons, ih]
      constructor
      · rintro (hm | ⟨hm, hex⟩)
        · rw [hm]
          exact ⟨Or.inl rfl, by simpa using hx⟩
        · exact ⟨Or.inr hm, hex⟩
      · rintro ⟨hm | hm, hex⟩
        · exact Or.inl hm
        · exact Or.inr ⟨hm, hex⟩

/-- C6: a sweep removes exactly the sessions with `references ≤ 0` whose
`lastAccess` is more than the 30s timeout before `now` (so an entry that
just reached zero references survives any sweep within the timeout), the
surviving table is the same whether or not the kills throw, and some sweep
of the 60s-periodic janitor lands in the window
`(lastAccess + timeout, lastAccess + timeout + period]`. -/
theorem C6_janitor_sweep (kt kt' : String → Bool) (now : Int)
    (table : StreamTable) (key : String) (s : StreamSession) :
    ((key, s) ∈ (cleanupInactiveStreams kt now table).table ↔
      (key, s) ∈ table ∧
        ¬(s.references ≤ 0 ∧ now - s.lastAccess > STREAM_INACTIVITY_TIMEOUT)) ∧
    ((cleanupInactiveStreams kt now table).table =
      (cleanupInactiveStreams kt' now table).table) ∧
    (∀ s0 t : Int, s0 ≤ t + STREAM_INACTIVITY_TIMEOUT + JANITOR_SWEEP_PERIOD →
      ∃ i : Nat,
        t + STREAM_INACTIVITY_TIMEOUT < s0 + (i : Int) * JANITOR_SWEEP_PERIOD ∧
        s0 + (i : Int) * JANITOR_SWEEP_PERIOD ≤
          t + STREAM_INACTIVITY_TIMEOUT + JANITOR_SWEEP_PERIOD) := by
  refine ⟨?_, cleanup_table_killIndep kt kt' now table, ?_⟩
  · rw [cleanup_table_mem kt now table (key, s)]
    unfold janitorExpired
    constructor
    · rintro ⟨hm, hex⟩
      refine ⟨hm, ?_⟩
      intro ⟨h1, h2⟩
      rw [Bool.and_eq_false_iff] at hex
      rcases hex with hex | hex
      · rw [decide_eq_false_iff_not] at hex
        exact hex h1
      · rw [decide_eq_false_iff_not] at hex
        exact hex h2
    · rintro ⟨hm, hex⟩
      refine ⟨hm, ?_⟩
      rw [Bool.and_eq_false_iff]
      by_cases h1 : s.references ≤ 0
      · right
        rw [decide_eq_false_iff_not]
        exact fun h2 => hex ⟨h1, h2⟩
      · left
        rw [decide_eq_false_iff_not]
        exact h1
  · intro s0 t h
    unfold STREAM_INACTIVITY_TIMEOUT JANITOR_SWEEP_PERIOD at h ⊢
    by_cases hc : t + 30000 < s0
    · exact ⟨0, by push_cast; omega, by push_cast; omega⟩
    · push_neg at hc
      have hd : ((t + 30000 - s0).toNat : Int) = t + 30000 - s0 :=
        Int.toNat_of_nonneg (by omega)
      refine ⟨(t + 30000 - s0).toNat / 60000 + 1, ?_, ?_⟩
      all_goals
        have hmod := Nat.div_add_mod (t + 30000 - s0).toNat 60000
        have hrlt : (t + 30000 - s0).toNat % 60000 < 60000 :=
          Nat.mod_lt _ (by norm_num)
        have hmodZ : (60000 : Int) * (((t + 30000 - s0).toNat / 60000 : Nat) : Int) +
            (((t + 30000 - s0).toNat % 60000 : Nat) : Int) =
            ((t + 30000 - s0).toNat : Int) := by exact_mod_cast hmod
        have hrltZ : (((t + 30000 - s0).toNat % 60000 : Nat) : Int) < 60000 := by
          exact_mod_cast hrlt
        push_cast
        push_cast at hmodZ hrltZ hd
        omega

/-- Witness for C6 at a one-entry table whose session reached zero
references 40 seconds ago. -/
theorem C6_janitor_sweep_witness :
    (("k", (⟨0, 0, some 3⟩ : StreamSession)) ∈
        (cleanupInactiveStreams (fun _ => true) 40000
          [("k", ⟨0, 0, some 3⟩)]).table ↔
      ("k", (⟨0, 0, some 3⟩ : StreamSession)) ∈
          [("k", (⟨0, 0, some 3⟩ : StreamSession))] ∧
        ¬((0 : Int) ≤ 0 ∧ (40000 : Int) - 0 > STREAM_INACTIVITY_TIMEOUT)) ∧
    ((cleanupInactiveStreams (fun _ => true) 40000
        [("k", ⟨0, 0, some 3⟩)]).table =
      (cleanupInactiveStreams (fun _ => false) 40000
        [("k", ⟨0, 0, some 3⟩)]).table) ∧
    (∃ i : Nat,
      (0 : Int) + STREAM_INACTIVITY_TIMEOUT < 0 + (i : Int) * JANITOR_SWEEP_PERIOD ∧
      (0 : Int) + (i : Int) * JANITOR_SWEEP_PERIOD ≤
        0 + STREAM_INACTIVITY_TIMEOUT + JANITOR_SWEEP_PERIOD) :=
  ⟨(C6_janitor_sweep (fun _ => true) (fun _ => false) 40000
      [("k", ⟨0, 0, some 3⟩)] "k" ⟨0, 0, some 3⟩).1,
   (C6_janitor_sweep (fun _ => true) (fun _ => false) 40000
      [("k", ⟨0, 0, some 3⟩)] "k" ⟨0, 0, some 3⟩).2.1,
   (C6_janitor_sweep (fun _ => true) (fun _ => false) 40000
      [("k", ⟨0, 0, some 3⟩)] "k" ⟨0, 0, some 3⟩).2.2 0 0 (by decide)⟩

/-- Scanning a run of plain (non-space, non-quote) characters accumulates
them onto the current token. -/
theorem scanTokens_plainRun : ∀ (a : List Char) (acc r : List Char),
    (∀ x ∈ a, isSpaceChar x = false ∧ (x == '"') = false) →
    scanTokens false acc (a ++ r) = scanTokens false (a.reverse ++ acc) r := by
  intro a
  induction a with
  | nil => intro acc r _; simp
  | cons x xs ih =>
    intro acc r h
    obtain ⟨hx, hq⟩ := h x (List.mem_cons_self x xs)
    have hrest : ∀ y ∈ xs, isSpaceChar y = false ∧ (y == '"') = false :=
      fun y hy => h y (List.mem_cons_of_mem x hy)
    show (if isSpaceChar x = true then _
          else if (x == '"') = true then _
          else scanTokens false (x :: acc) (xs ++ r)) = _
    rw [if_neg (by rw [hx]; exact Bool.false_ne_true),
        if_neg (by rw [hq]; exact Bool.false_ne_true),
        ih (x :: acc) r hrest]
    simp [List.append_assoc]

/-- Scanning inside a quoted stretch accumulates everything up to (and
including) the closing quote, then leaves quote mode. -/
theorem scanTokens_quoted : ∀ (b : List Char) (acc r : List Char),
    (∀ x ∈ b, (x == '"') = false) →
    scanTokens true acc (b ++ '"' :: r) =
      scanTokens false ('"' :: (b.reverse ++ acc)) r := by
  intro b
  induction b with
  | nil =>
    intro acc r _
    show (if ('"' == '"') = true then scanTokens false ('"' :: acc) r else _) = _
    rw [if_pos (by decide)]
    simp
  | cons x xs ih =>
    intro acc r h
    have hx := h x (List.mem_cons_self x xs)
    have hrest : ∀ y ∈ xs, (y == '"') = false :=
      fun y hy => h y (List.mem_cons_of_mem x hy)
    show (if (x == '"') = true then _
          else scanTokens true (x :: acc) (xs ++ '"' :: r)) = _
    rw [if_neg (by rw [hx]; exact Bool.false_ne_true), ih (x :: acc) r hrest]
    simp [List.append_assoc]

/-- A `"` whose remainder still holds a closing `"` opens a quoted stretch. -/
theorem scanTokens_quoteOpen (acc cs : List Char)
    (h : cs.contains '"' = true) :
    scanTokens false acc ('"' :: cs) = scanTokens true ('"' :: acc) cs := by
  show (if isSpaceChar '"' = true then _
        else if ('"' == '"') = true then
          if cs.contains '"' = true then scanTokens true ('"' :: acc) cs else _
        else _) = _
  rw [if_neg (by decide), if_pos (by decide), if_pos h]

/-- Whitespace ends the current token. -/
theorem scanTokens_space (acc cs : List Char) :
    scanTokens false acc (' ' :: cs) =
      emitToken acc (scanTokens false [] cs) := by
  show (if isSpaceChar ' ' = true then emitToken acc (scanTokens false [] cs)
        else _) = _
  rw [if_pos (by decide)]

/-- Emitting a reversed non-empty accumulator yields the token. -/
theorem emitToken_reverse (a : List Char) (rest : List (List Char))
    (ha : a ≠ []) : emitToken a.reverse rest = a :: rest := by
  unfold emitToken
  rw [if_neg ?_, List.reverse_reverse]
  intro h
  rw [List.isEmpty_iff, List.reverse_eq_nil_iff] at h
  exact ha h

/-- Stripping does nothing to a token without quote characters. -/
theorem stripQuotes_plain (l : List Char)
    (h : ∀ x ∈ l, (x == '"') = false) : stripQuotes l = l := by
  cases hl : l with
  | nil => rfl
  | cons x xs =>
    have hx := h x (hl ▸ List.mem_cons_self x xs)
    have h1 : stripLeadingQuote (x :: xs) = x :: xs := by
      unfold stripLeadingQuote
      dsimp only
      rw [if_neg (by rw [hx]; exact Bool.false_ne_true)]
    unfold stripQuotes
    rw [h1]
    unfold stripTrailingQuote
    rw [if_neg ?_]
    intro hlast
    rw [beq_iff_eq] at hlast
    have hmem : '"' ∈ (x :: xs).getLast? := hlast
    obtain ⟨hne, heq⟩ := List.mem_getLast?_eq_getLast hmem
    have := h '"' (hl ▸ (heq ▸ List.getLast_mem hne))
    simp at this

/-- Stripping a fully quoted token returns its contents. -/
theorem stripQuotes_quoted (b : List Char) :
    stripQuotes ('"' :: (b ++ ['"'])) = b := by
  have h1 : stripLeadingQuote ('"' :: (b ++ ['"'])) = b ++ ['"'] := by
    unfold stripLeadingQuote
    dsimp only
    rw [if_pos (by decide)]
  unfold stripQuotes
  rw [h1]
  unfold stripTrailingQuote
  have h2 : ((b ++ ['"']).getLast? == some '"') = true := by
    rw [List.getLast?_concat]
    decide
  rw [if_pos h2]
  exact List.dropLast_concat

/-- A list is a prefix of itself followed by anything. -/
theorem isPrefixOf_append_self (l t : List Char) :
    l.isPrefixOf (l ++ t) = true := by
  induction l with
  | nil => simp [List.isPrefixOf]
  | cons a as ih => simp [List.isPrefixOf, ih]

/-- The empty pattern occurs in every list. -/
theorem containsSeq_nil (l : List Char) : containsSeq [] l = true := by
  cases l with
  | nil => rfl
  | cons c cs => simp [containsSeq, List.isPrefixOf]

/-- Every list contains itself as a pattern. -/
theorem containsSeq_self (l : List Char) : containsSeq l l = true := by
  cases l with
  | nil => rfl
  | cons c cs =>
    simp only [containsSeq, Bool.or_eq_true]
    refine Or.inl ?_
    have h := isPrefixOf_append_self (c :: cs) []
    rwa [List.append_nil] at h

/-- A prefix stays a prefix after extending the larger list. -/
theorem isPrefixOf_append_of (l₁ l₂ t : List Char)
    (h : l₁.isPrefixOf l₂ = true) : l₁.isPrefixOf (l₂ ++ t) = true := by
  induction l₁ generalizing l₂ with
  | nil => simp [List.isPrefixOf]
  | cons a as ih =>
    cases l₂ with
    | nil => simp [List.isPrefixOf] at h
    | cons b bs =>
      simp only [List.isPrefixOf, Bool.and_eq_true] at h
      simp only [List.cons_append, List.isPrefixOf, Bool.and_eq_true]
      exact ⟨h.1, ih bs h.2⟩

/-- An occurrence survives appending on the right. -/
theorem containsSeq_append_right (pat l t : List Char)
    (h : containsSeq pat l = true) : containsSeq pat (l ++ t) = true := by
  induction l with
  | nil =>
    have hp : pat = [] := by
      cases pat with
      | nil => rfl
      | cons p ps => simp [containsSeq] at h
    subst hp
    exact containsSeq_nil t
  | cons c cs ih =>
    simp only [containsSeq, Bool.or_eq_true] at h
    simp only [List.cons_append, containsSeq, Bool.or_eq_true]
    rcases h with h | h
    · exact Or.inl (isPrefixOf_append_of pat (c :: cs) t h)
    · exact Or.inr (ih h)

/-- An occurrence survives prepending on the left. -/
theorem containsSeq_append_left (pat l t : List Char)
    (h : containsSeq pat t = true) : containsSeq pat (l ++ t) = true := by
  induction l with
  | nil => simpa using h
  | cons c cs ih =>
    simp only [List.cons_append, containsSeq, Bool.or_eq_true]
    exact Or.inr ih

/-- Lemma: `containsSeq` finds a pattern at the end of a list. -/
theorem containsSeq_end (pat pre : List Char) :
    containsSeq pat (pre ++ pat) = true :=
  containsSeq_append_left pat pre pat (containsSeq_self pat)

/-- C3: the exit is graceful iff the code is 0 or 255 or stderr contains
the cooperative-interrupt marker; graceful + existing file larger than 1024
bytes completes the job with duration `endTime − startTime` from the job
row; every other case marks 'error' with a message embedding the exit code,
any stat error and the last 1000 stderr characters, deleting the file when
it exists with size at most 1024 bytes. -/
theorem C3_close_classification (jobStart jobEnd : Int) (code : Option Int)
    (stderrOutput : String) (stat : Except String Nat) :
    ((code == some 0 || wasStoppedIntentionally code stderrOutput) = true ↔
      code = some 0 ∨ code = some 255 ∨
        containsSeq interruptMarker.data stderrOutput.data = true) ∧
    (∀ size : Nat, stat = .ok size →
      (1024 < size ∧
          (code == some 0 || wasStoppedIntentionally code stderrOutput) = true →
        onRecordingClose jobStart jobEnd code stderrOutput stat =
          .completed (mathRoundDiv1000 (jobEnd - jobStart)) size) ∧
      (size ≤ 1024 ∨
          (code == some 0 || wasStoppedIntentionally code stderrOutput) = false →
        onRecordingClose jobStart jobEnd code stderrOutput stat =
          .errored (recordingFailMessage code none stderrOutput)
            (decide (size ≤ 1024)))) ∧
    (∀ msg : String, stat = .error msg →
      onRecordingClose jobStart jobEnd code stderrOutput stat =
        .errored (recordingFailMessage code (some msg) stderrOutput) false) ∧
    (∀ statErr : Option String,
      strContains (recordingFailMessage code statErr stderrOutput)
        (jsCodeString code) = true ∧
      strContains (recordingFailMessage code statErr stderrOutput)
        (sliceLastThousand stderrOutput) = true ∧
      ∀ m : String, statErr = some m →
        strContains (recordingFailMessage code statErr stderrOutput) m = true) := by
  refine ⟨?_, ?_, ?_, ?_⟩
  · simp only [wasStoppedIntentionally, Bool.or_eq_true, beq_iff_eq]
    tauto
  · intro size hstat
    subst hstat
    constructor
    · rintro ⟨hsize, hgr⟩
      simp only [onRecordingClose]
      rw [if_pos (by simp [hgr, hsize])]
    · intro h
      simp only [onRecordingClose]
      rw [if_neg ?_]
      rcases h with h | h
      · intro hcond
        rw [Bool.and_eq_true] at hcond
        have := hcond.2
        simp only [decide_eq_true_eq] at this
        omega
      · intro hcond
        rw [Bool.and_eq_true] at hcond
        rw [h] at hcond
        cases hcond.1
  · intro msg hstat
    subst hstat
    simp only [onRecordingClose]
  · intro statErr
    refine ⟨?_, ?_, ?_⟩
    · show containsSeq (jsCodeString code).data _ = true
      simp only [recordingFailMessage, String.data_append]
      exact containsSeq_append_right _ _ _ (containsSeq_append_right _ _ _
        (containsSeq_append_right _ _ _ (containsSeq_append_right _ _ _
          (containsSeq_end _ _))))
    · show containsSeq (sliceLastThousand stderrOutput).data _ = true
      simp only [recordingFailMessage, String.data_append]
      exact containsSeq_end _ _
    · intro m hm
      subst hm
      show containsSeq m.data _ = true
      simp only [recordingFailMessage, String.data_append]
      exact containsSeq_append_right _ _ _ (containsSeq_append_right _ _ _
        (containsSeq_append_left _ _ _ (containsSeq_end _ _)))

/-- Witness for C3: exit code 255 with a 2048-byte file completes with the
job-window duration (3600 s for a one-hour window); exit code 1 with a file
of exactly 1024 bytes errors and deletes the file; the failure message
contains the exit code. -/
theorem C3_close_classification_witness :
    onRecordingClose 0 3600000 (some 255) "" (.ok 2048) =
      .completed 3600 2048 ∧
    onRecordingClose 0 3600000 (some 1) "" (.ok 1024) =
      .errored (recordingFailMessage (some 1) none "") true ∧
    strContains (recordingFailMessage (some 1) none "")
      (jsCodeString (some 1)) = true :=
  ⟨((C3_close_classification 0 3600000 (some 255) "" (.ok 2048)).2.1 2048
      rfl).1 ⟨by decide, by decide⟩,
   ((C3_close_classification 0 3600000 (some 1) "" (.ok 1024)).2.1 1024
      rfl).2 (Or.inl (by decide)),
   ((C3_close_classification 0 3600000 (some 1) "" (.ok 1024)).2.2.2 none).1⟩

/-- C4: at startup every 'recording' job becomes 'error' with a message
containing "Server restarted during recording"; every 'scheduled' job is
re-armed from its persisted times: an elapsed window is marked 'error'
("scheduled for a time in the past") with no timer armed, a past start with
a future end starts immediately, and a future start arms a start timer at
`startTime` and a stop timer at `endTime`. -/
theorem C4_startup_recovery (job : DvrJob) (now : Int) :
    (job.status = .recording →
      (markInterruptedRecording job).status = .error ∧
      (markInterruptedRecording job).errorMessage =
        some "Server restarted during recording." ∧
      strContains "Server restarted during recording."
        "Server restarted during recording" = true) ∧
    (job.status = .scheduled →
      (job.endTime ≤ now →
        scheduleDvrJobAction now job = .pastNoTimers ∧
        (scheduleDvrJobRecover now job).status = .error ∧
        (scheduleDvrJobRecover now job).errorMessage =
          some "Job was scheduled for a time in the past." ∧
        strContains "Job was scheduled for a time in the past."
          "scheduled for a time in the past" = true) ∧
      (job.startTime ≤ now → now < job.endTime →
        scheduleDvrJobAction now job = .startImmediately job.endTime) ∧
      (now < job.startTime → now < job.endTime →
        scheduleDvrJobAction now job = .armTimers job.startTime job.endTime)) := by
  constructor
  · intro hrec
    unfold markInterruptedRecording
    rw [if_pos hrec]
    refine ⟨rfl, rfl, by decide⟩
  · intro hsched
    refine ⟨?_, ?_, ?_⟩
    · intro hpast
      unfold scheduleDvrJobAction scheduleDvrJobRecover
      rw [if_pos hpast, if_pos hpast, if_pos hsched]
      refine ⟨rfl, rfl, rfl, by decide⟩
    · intro hstart hend
      unfold scheduleDvrJobAction
      rw [if_neg (by omega), if_neg (by omega)]
    · intro hstart hend
      unfold scheduleDvrJobAction
      rw [if_neg (by omega), if_pos hstart]

/-- Witness for C4 at concrete jobs: a job persisted as 'recording', and a
'scheduled' job in each of the three timing cases at `now = 1000`. -/
theorem C4_startup_recovery_witness :
    ((markInterruptedRecording ⟨.recording, 0, 500, none⟩).status = .error ∧
      (markInterruptedRecording ⟨.recording, 0, 500, none⟩).errorMessage =
        some "Server restarted during recording." ∧
      strContains "Server restarted during recording."
        "Server restarted during recording" = true) ∧
    (scheduleDvrJobAction 1000 ⟨.scheduled, 0, 500, none⟩ = .pastNoTimers ∧
      (scheduleDvrJobRecover 1000 ⟨.scheduled, 0, 500, none⟩).status = .error) ∧
    scheduleDvrJobAction 1000 ⟨.scheduled, 900, 2000, none⟩ =
      .startImmediately 2000 ∧
    scheduleDvrJobAction 1000 ⟨.scheduled, 1500, 2000, none⟩ =
      .armTimers 1500 2000 :=
  ⟨(C4_startup_recovery ⟨.recording, 0, 500, none⟩ 1000).1 rfl,
   ⟨((C4_startup_recovery ⟨.scheduled, 0, 500, none⟩ 1000).2 rfl).1 (by decide) |>.1,
    ((C4_startup_recovery ⟨.scheduled, 0, 500, none⟩ 1000).2 rfl).1 (by decide) |>.2.1⟩,
   ((C4_startup_recovery ⟨.scheduled, 900, 2000, none⟩ 1000).2 rfl).2.1
      (by decide) (by decide),
   ((C4_startup_recovery ⟨.scheduled, 1500, 2000, none⟩ 1000).2 rfl).2.2
      (by decide) (by decide)⟩

/-- C7 counterexample: the claim "terminal jobs are immutable" is false —
POST /api/dvr/jobs/:id/stop updates a job already in the terminal status
'error' to 'completed', because its UPDATE has no status guard. -/
theorem C7_counterexample :
    JobStatus.isTerminal .error = true ∧
    (stopJobEndpointUpdate ⟨.error, 0, 0, none⟩).status = .completed ∧
    (stopJobEndpointUpdate ⟨.error, 0, 0, none⟩).status ≠ .error ∧
    JobStatus.isTerminal .completed = true ∧
    (cancelJobEndpointUpdate ⟨.completed, 0, 0, none⟩).status = .cancelled ∧
    (cancelJobEndpointUpdate ⟨.completed, 0, 0, none⟩).status ≠ .completed := by
  decide

/-- C7 amended: only RescheduleJob guards the lifecycle (it rejects any job
not in 'scheduled'); StopJob sets every matched job's status to 'completed'
and CancelJob sets it to 'cancelled' regardless of the current status, so
terminal states are mutable through those two endpoints. -/
theorem C7_terminal_status (job : DvrJob) (newStart newEnd : Int) :
    (stopJobEndpointUpdate job).status = .completed ∧
    (cancelJobEndpointUpdate job).status = .cancelled ∧
    (job.status ≠ .scheduled →
      rescheduleJobEndpoint job newStart newEnd =
        .error "Only scheduled jobs can be modified.") ∧
    (job.status = .scheduled →
      rescheduleJobEndpoint job newStart newEnd =
        .ok { job with startTime := newStart, endTime := newEnd }) := by
  refine ⟨rfl, rfl, ?_, ?_⟩
  · intro h
    unfold rescheduleJobEndpoint
    rw [if_pos h]
  · intro h
    unfold rescheduleJobEndpoint
    rw [if_neg (by simp [h])]

/-- Witness for C7's amended theorem at a terminal ('error') job. -/
theorem C7_terminal_status_witness :
    (stopJobEndpointUpdate ⟨.error, 0, 0, none⟩).status = .completed ∧
    (cancelJobEndpointUpdate ⟨.error, 0, 0, none⟩).status = .cancelled ∧
    rescheduleJobEndpoint ⟨.error, 0, 0, none⟩ 1 2 =
      .error "Only scheduled jobs can be modified." :=
  ⟨(C7_terminal_status ⟨.error, 0, 0, none⟩ 1 2).1,
   (C7_terminal_status ⟨.error, 0, 0, none⟩ 1 2).2.1,
   (C7_terminal_status ⟨.error, 0, 0, none⟩ 1 2).2.2.1 (by decide)⟩

/-- C10: arming a job stores only the start timer in `activeDvrJobs`; the
stop timer armed at `endTime` survives both the cancel endpoint and a
reschedule (neither of which can reach it), and when it fires,
`stopRecording` is a warning no-op without a tracked process and sends
SIGINT when one is tracked. -/
theorem C10_stop_timer_survives (now now2 s e s2 e2 : Int) (st : TimerState) :
    ((cancelStoredStartTimer st).liveStopTimers = st.liveStopTimers) ∧
    (∀ t ∈ st.liveStopTimers,
      t ∈ (scheduleDvrJobTimers now s e st).liveStopTimers) ∧
    (now < s → now < e →
      (scheduleDvrJobTimers now s e st).activeDvrJob = some s ∧
      e ∈ (scheduleDvrJobTimers now s e st).liveStopTimers) ∧
    (s ≤ now → now < e →
      (scheduleDvrJobTimers now s e st).activeDvrJob = none ∧
      e ∈ (scheduleDvrJobTimers now s e st).liveStopTimers) ∧
    (now < s → now < e →
      (cancelStoredStartTimer (scheduleDvrJobTimers now s e st)).activeDvrJob
          = none ∧
      e ∈ (cancelStoredStartTimer
            (scheduleDvrJobTimers now s e st)).liveStopTimers ∧
      e ∈ (scheduleDvrJobTimers now2 s2 e2
            (scheduleDvrJobTimers now s e st)).liveStopTimers) ∧
    (stopRecording none false = .warnNoop ∧ stopRecording none true = .warnNoop) ∧
    (∀ pid : Nat, stopRecording (some pid) false = .sigint pid) := by
  have hcancel : ∀ st' : TimerState,
      (cancelStoredStartTimer st').liveStopTimers = st'.liveStopTimers :=
    cancelStoredStartTimer_liveStopTimers
  have harm : now < s → now < e →
      (scheduleDvrJobTimers now s e st).activeDvrJob = some s ∧
      e ∈ (scheduleDvrJobTimers now s e st).liveStopTimers := by
    intro hs he
    unfold scheduleDvrJobTimers
    rw [if_neg (by omega), if_pos hs]
    exact ⟨rfl, by simp [List.mem_append]⟩
  refine ⟨hcancel st, ?_, harm, ?_, ?_, ⟨rfl, rfl⟩, fun _ => rfl⟩
  · intro t ht
    exact scheduleDvrJobTimers_liveStop_mono now s e st t ht
  · intro hs he
    unfold scheduleDvrJobTimers
    rw [if_neg (by omega), if_neg (by omega)]
    constructor
    · show (cancelStoredStartTimer st).activeDvrJob = none
      cases h : st.activeDvrJob <;> simp [cancelStoredStartTimer, h]
    · simp [List.mem_append]
  · intro hs he
    obtain ⟨hmap, hmem⟩ := harm hs he
    refine ⟨?_, ?_, ?_⟩
    · simp [cancelStoredStartTimer, hmap]
    · rw [hcancel]
      exact hmem
    · exact scheduleDvrJobTimers_liveStop_mono now2 s2 e2 _ e hmem

/-- Witness for C10 at a concrete arming (`now = 0`, start 100, stop 200)
followed by a cancel and a reschedule to (300, 400). -/
theorem C10_stop_timer_survives_witness :
    ((cancelStoredStartTimer ⟨none, [], []⟩).liveStopTimers = []) ∧
    ((scheduleDvrJobTimers 0 100 200 ⟨none, [], []⟩).activeDvrJob = some 100 ∧
      (200 : Int) ∈ (scheduleDvrJobTimers 0 100 200 ⟨none, [], []⟩).liveStopTimers) ∧
    ((cancelStoredStartTimer
        (scheduleDvrJobTimers 0 100 200 ⟨none, [], []⟩)).activeDvrJob = none ∧
      (200 : Int) ∈ (cancelStoredStartTimer
        (scheduleDvrJobTimers 0 100 200 ⟨none, [], []⟩)).liveStopTimers ∧
      (200 : Int) ∈ (scheduleDvrJobTimers 250 300 400
        (scheduleDvrJobTimers 0 100 200 ⟨none, [], []⟩)).liveStopTimers) ∧
    stopRecording none false = .warnNoop ∧
    stopRecording (some 42) false = .sigint 42 :=
  ⟨(C10_stop_timer_survives 0 250 100 200 300 400 ⟨none, [], []⟩).1,
   (C10_stop_timer_survives 0 250 100 200 300 400 ⟨none, [], []⟩).2.2.1
      (by decide) (by decide),
   (C10_stop_timer_survives 0 250 100 200 300 400 ⟨none, [], []⟩).2.2.2.2.1
      (by decide) (by decide),
   (C10_stop_timer_survives 0 250 100 200 300 400 ⟨none, [], []⟩).2.2.2.2.2.1.1,
   (C10_stop_timer_survives 0 250 100 200 300 400 ⟨none, [], []⟩).2.2.2.2.2.2 42⟩

/-- C9: tokenization splits on whitespace, keeps a double-quoted substring
(which may contain spaces) as a single token and strips the surrounding
quotes; `{streamUrl}` is replaced at every occurrence; `{userAgent}` is
replaced in both paths; the alias `{clientUserAgent}` is accepted only by
the live path; `{filePath}` is substituted only by the recording path. -/
theorem C9_template_processing (a b c : List Char)
    (ha : a ≠ []) (ha2 : ∀ x ∈ a, isSpaceChar x = false ∧ (x == '"') = false)
    (hb : ∀ x ∈ b, (x == '"') = false)
    (hc : c ≠ []) (hc2 : ∀ x ∈ c, isSpaceChar x = false ∧ (x == '"') = false) :
    tokenizeCommand (a ++ ' ' :: '"' :: (b ++ '"' :: ' ' :: c)) = [a, b, c] ∧
    liveSubstitute "U".data "A".data
      "-a {streamUrl} -b {userAgent} -c {clientUserAgent} -d {filePath}".data =
      "-a U -b A -c A -d {filePath}".data ∧
    recordingSubstitute "U".data "A".data "F".data
      "-a {streamUrl} -b {userAgent} -c {clientUserAgent} -d {filePath}".data =
      "-a U -b A -c {clientUserAgent} -d F".data ∧
    substStreamUrl "U".data "x{streamUrl}y{streamUrl}".data = "xUyU".data := by
  refine ⟨?_, by decide, by decide, by decide⟩
  unfold tokenizeCommand
  rw [scanTokens_plainRun a [] (' ' :: '"' :: (b ++ '"' :: ' ' :: c)) ha2,
      List.append_nil, scanTokens_space,
      scanTokens_quoteOpen [] (b ++ '"' :: ' ' :: c) (by simp),
      scanTokens_quoted b ['"'] (' ' :: c) hb, scanTokens_space]
  have hc3 : scanTokens false ([] : List Char) c = [c] := by
    have h1 : scanTokens false ([] : List Char) (c ++ []) =
        scanTokens false (c.reverse ++ []) [] :=
      scanTokens_plainRun c [] [] hc2
    rw [List.append_nil, List.append_nil] at h1
    rw [h1]
    show emitToken c.reverse [] = [c]
    exact emitToken_reverse c [] hc
  rw [hc3, emitToken_reverse a _ ha]
  have hemit : emitToken ('"' :: (b.reverse ++ ['"'])) [c] =
      ('"' :: (b ++ ['"'])) :: [c] := by
    show (if ('"' :: (b.reverse ++ ['"'])).isEmpty = true then _ else _) = _
    rw [if_neg (by simp [List.isEmpty_iff])]
    simp
  rw [hemit]
  simp only [List.map_cons, List.map_nil]
  rw [stripQuotes_plain a (fun x hx => (ha2 x hx).2),
      stripQuotes_quoted b,
      stripQuotes_plain c (fun x hx => (hc2 x hx).2)]

/-- Witness for C9 on the template `-i "a b" c` with the concrete
substitution facts. -/
theorem C9_template_processing_witness :
    tokenizeCommand "-i \"a b\" c".data = ["-i".data, "a b".data, "c".data] ∧
    liveSubstitute "U".data "A".data
      "-a {streamUrl} -b {userAgent} -c {clientUserAgent} -d {filePath}".data =
      "-a U -b A -c A -d {filePath}".data ∧
    recordingSubstitute "U".data "A".data "F".data
      "-a {streamUrl} -b {userAgent} -c {clientUserAgent} -d {filePath}".data =
      "-a U -b A -c {clientUserAgent} -d F".data ∧
    substStreamUrl "U".data "x{streamUrl}y{streamUrl}".data = "xUyU".data :=
  C9_template_processing "-i".data "a b".data "c".data
    (by decide) (by decide) (by decide) (by decide) (by decide)

end ViniPlay
